import Mathlib

/-!
Verification development for the concepts repository: a shallow embedding of
the ingestion builder (create_duckdb.py) and of the read-only query service
(app/api.py), with theorems settling the frozen claims about them.
-/

namespace Concepts

/-- Python compares strings lexicographically by code point; the order on
String is decided through the list order on the characters so that
concrete runs of the builder evaluate. -/
instance strDecLt (s t : String) : Decidable (s < t) :=
  decidable_of_iff (s.toList < t.toList) String.lt_iff_toList_lt.symm

/-! ### Ingestion builder data model (create_duckdb.py) -/

/-- One input JSON document (fields read by create_duckdb.py from each
concept file under s3-concepts/concepts). The labelled_passages payload is
kept as its raw JSON text. -/
structure InputRecord where
  wikibase_id : String
  preferred_label : String
  alternative_labels : List String
  negative_labels : List String
  description : String
  definition : String
  labelled_passages : String
  subconcept_of : List String
  related_concepts : List String
deriving DecidableEq

/-- A row of the concepts table exactly as the builder DDL creates it:
seven columns, with no classifier-presence column. -/
structure ConceptRow where
  wikibase_id : String
  preferred_label : String
  alternative_labels : List String
  negative_labels : List String
  description : String
  definition : String
  labelled_passages : String
deriving DecidableEq

/-- The seven values inserted by the builder INSERT INTO concepts. -/
def conceptRowOf (r : InputRecord) : ConceptRow :=
  { wikibase_id := r.wikibase_id
    preferred_label := r.preferred_label
    alternative_labels := r.alternative_labels
    negative_labels := r.negative_labels
    description := r.description
    definition := r.definition
    labelled_passages := r.labelled_passages }

/-- The three relations written by the builder, plus the missing_concepts
set it accumulates while inserting edges. subRel rows are
(concept_id, subconcept_id) pairs; relRel rows are
(concept_id1, concept_id2) pairs. -/
structure BuildState where
  concepts : List ConceptRow
  subRel : List (String × String)
  relRel : List (String × String)
  missing : List String
deriving DecidableEq

/-- Primary keys currently present in the concepts table. -/
def conceptIds (s : BuildState) : List String :=
  s.concepts.map (fun c => c.wikibase_id)

/-- missing_concepts is a Python set: adding keeps one copy per id. -/
def addMissing (m : List String) (x : String) : List String :=
  if x ∈ m then m else m ++ [x]

/-- Pass 1 of the builder: insert every record into concepts. A duplicate
wikibase_id raises an uncaught PRIMARY KEY ConstraintException and aborts
the whole script, modelled as none. -/
def insertConcepts : BuildState → List InputRecord → Option BuildState
  | s, [] => some s
  | s, r :: rest =>
    if r.wikibase_id ∈ conceptIds s then none
    else insertConcepts { s with concepts := s.concepts ++ [conceptRowOf r] } rest

/-- One INSERT INTO concept_subconcept_relations (concept_id, subconcept_id)
VALUES (record id, parent id). The FOREIGN KEY checks on both columns and
the UNIQUE pair constraint are enforced by the engine; on a
ConstraintException the builder records subconcept_id in missing_concepts
and continues. -/
def insertSubEdge (s : BuildState) (rid pid : String) : BuildState :=
  if rid ∈ conceptIds s ∧ pid ∈ conceptIds s ∧ (rid, pid) ∉ s.subRel then
    { s with subRel := s.subRel ++ [(rid, pid)] }
  else
    { s with missing := addMissing s.missing pid }

/-- One iteration of the related_concepts loop: the builder only runs the
INSERT when the declaring record id compares strictly smaller than the
related id; otherwise the declaration is skipped with no attempt at all. -/
def insertRelEdge (s : BuildState) (rid tid : String) : BuildState :=
  if rid < tid then
    if rid ∈ conceptIds s ∧ tid ∈ conceptIds s ∧ (rid, tid) ∉ s.relRel then
      { s with relRel := s.relRel ++ [(rid, tid)] }
    else
      { s with missing := addMissing s.missing tid }
  else s

/-- The subconcept_of loop of pass 2 for one record. -/
def insertSubEdges (rid : String) : BuildState → List String → BuildState
  | s, [] => s
  | s, p :: rest => insertSubEdges rid (insertSubEdge s rid p) rest

/-- The related_concepts loop of pass 2 for one record. -/
def insertRelEdges (rid : String) : BuildState → List String → BuildState
  | s, [] => s
  | s, t :: rest => insertRelEdges rid (insertRelEdge s rid t) rest

/-- Pass 2 of the builder: for every record, insert its subconcept edges
and then its related edges. -/
def pass2 : BuildState → List InputRecord → BuildState
  | s, [] => s
  | s, r :: rest =>
    pass2 (insertRelEdges r.wikibase_id
      (insertSubEdges r.wikibase_id s r.subconcept_of) r.related_concepts) rest

/-- The whole builder run over a list of input records: pass 1 then pass 2.
none models the script aborting on a duplicate primary key. -/
def build (records : List InputRecord) : Option BuildState :=
  (insertConcepts ⟨[], [], [], []⟩ records).map (fun s => pass2 s records)

/-! ### Schema of the built concepts table versus the columns the API reads -/

/-- Column names of the concepts table in the builder DDL. -/
def builderConceptColumns : List String :=
  ["wikibase_id", "preferred_label", "alternative_labels", "negative_labels",
   "description", "definition", "labelled_passages"]

/-- Column names selected by each of the three api.py read queries
(get_concept, search_concepts, batch_search_concepts). -/
def apiConceptSelectColumns : List String :=
  ["wikibase_id", "preferred_label", "alternative_labels", "negative_labels",
   "description", "definition", "labelled_passages", "has_classifier"]

/-- A SELECT binds successfully iff every selected column exists in the
table schema; otherwise the engine raises a binder error. -/
def selectBindsOk (schema selected : List String) : Prop :=
  ∀ c ∈ selected, c ∈ schema

/-- The get_concept subconcepts query evaluated against the built dataset:
SELECT c.* FROM concepts c JOIN concept_subconcept_relations r
ON c.wikibase_id = r.subconcept_id WHERE r.concept_id = cid.
One output row per matching (c, r) pair. -/
def builtSubconcepts (db : BuildState) (cid : String) : List ConceptRow :=
  db.concepts.flatMap (fun c =>
    (db.subRel.filter (fun r => c.wikibase_id == r.2 && r.1 == cid)).map (fun _ => c))

/-! ### Query service data model (app/api.py)

The three read handlers are modelled over the dataset shape that api.py
itself assumes: a concepts relation carrying all eight columns its SELECT
lists name (including has_classifier, which the spec makes part of the
concept), plus the two edge relations. -/

/-- A concepts row as read by the api.py SELECT lists. -/
structure ApiConceptRow where
  wikibase_id : String
  preferred_label : String
  alternative_labels : List String
  negative_labels : List String
  description : String
  definition : String
  labelled_passages : String
  has_classifier : Bool
deriving DecidableEq

/-- The dataset opened read-only by the service. -/
structure ApiDb where
  concepts : List ApiConceptRow
  subRel : List (String × String)
  relRel : List (String × String)
deriving DecidableEq

/-- The HTTPException outcomes the handlers produce. The internal detail
string in api.py also carries backend error text; the model keeps a fixed
reason string. -/
inductive ApiError where
  | notFound (detail : String)
  | badRequest (detail : String)
  | internal (detail : String)
deriving DecidableEq

/-- The composite object returned by get_concept. -/
structure ConceptComposite where
  concept : ApiConceptRow
  related_concepts : List ApiConceptRow
  subconcepts : List ApiConceptRow
deriving DecidableEq

/-! #### ILIKE pattern semantics (DuckDB, ASCII case folding) -/

/-- Case-insensitive character comparison used by ILIKE. -/
def lowerEq (a b : Char) : Bool := a.toLower == b.toLower

/-- The percent wildcard, matching any (possibly empty) character run. -/
def pctChar : Char := '%'

/-- The underscore wildcard, matching exactly one character. -/
def usChar : Char := Char.ofNat 95

/-- Fuel-indexed ILIKE matcher; fuel strictly above
pattern.length + text.length makes the first argument irrelevant. -/
def likeMatchFuel : Nat → List Char → List Char → Bool
  | 0, _, _ => false
  | _ + 1, [], s => s.isEmpty
  | f + 1, p :: ps, s =>
    if p = pctChar then
      likeMatchFuel f ps s ||
        (match s with
         | [] => false
         | _ :: s2 => likeMatchFuel f (p :: ps) s2)
    else
      match s with
      | [] => false
      | c :: s2 => (if p = usChar then true else lowerEq p c) && likeMatchFuel f ps s2

/-- ILIKE matching of a text against a pattern. -/
def likeMatch (p s : List Char) : Bool :=
  likeMatchFuel (p.length + s.length + 1) p s

/-- DuckDB ILIKE as used by search_concepts. -/
def ilike (pattern s : String) : Bool := likeMatch pattern.data s.data

/-! #### search_concepts -/

/-- Default of the has_classifier parameter in the search_concepts
signature: False, not None. -/
def searchDefaultHasClassifier : Option Bool := some false

/-- The two no-query SELECT branches (Python: if not q). -/
def searchNoQuery (db : ApiDb) (limit : Nat) : Option Bool → List ApiConceptRow
  | some f => (db.concepts.filter (fun c => c.has_classifier == f)).take limit
  | none => db.concepts.take limit

/-- The two query branches: WHERE preferred_label ILIKE q ++ percent. -/
def searchWithQuery (db : ApiDb) (s : String) (limit : Nat) :
    Option Bool → List ApiConceptRow
  | some f =>
    (db.concepts.filter
      (fun c => ilike (s ++ "%") c.preferred_label && c.has_classifier == f)).take limit
  | none =>
    (db.concepts.filter (fun c => ilike (s ++ "%") c.preferred_label)).take limit

/-- Rows fetched by search_concepts before the emptiness check. The empty
string is falsy in Python, so it selects the no-query branches. The limit
is passed to SQL LIMIT; the defined domain is the naturals. -/
def searchRows (db : ApiDb) (q : Option String) (limit : Nat)
    (has_classifier : Option Bool) : List ApiConceptRow :=
  match q with
  | none => searchNoQuery db limit has_classifier
  | some s =>
    if s = "" then searchNoQuery db limit has_classifier
    else searchWithQuery db s limit has_classifier

/-- GET /concepts/search: fetches rows, then raises 404 when none came
back, mirroring the walrus-guarded truthiness test in api.py. -/
def search_concepts (db : ApiDb) (q : Option String) (limit : Nat)
    (has_classifier : Option Bool) : Except ApiError (List ApiConceptRow) :=
  let rows := searchRows db q limit has_classifier
  if rows = [] then Except.error (ApiError.notFound "No results found")
  else Except.ok rows

/-! #### get_concept -/

/-- The related query of get_concept:
SELECT c.* FROM concepts c JOIN concept_related_relations r
ON c.wikibase_id = r.concept_id2 OR c.wikibase_id = r.concept_id1
WHERE r.concept_id1 = cid OR r.concept_id2 = cid.
One output row per matching (c, r) pair; the ON clause accepts either
endpoint of the edge. -/
def relatedRows (db : ApiDb) (cid : String) : List ApiConceptRow :=
  db.concepts.flatMap (fun c =>
    (db.relRel.filter (fun r =>
      (c.wikibase_id == r.2 || c.wikibase_id == r.1) &&
        (r.1 == cid || r.2 == cid))).map (fun _ => c))

/-- The subconcepts query of get_concept:
SELECT c.* FROM concepts c JOIN concept_subconcept_relations r
ON c.wikibase_id = r.subconcept_id WHERE r.concept_id = cid. -/
def subconceptRows (db : ApiDb) (cid : String) : List ApiConceptRow :=
  db.concepts.flatMap (fun c =>
    (db.subRel.filter (fun r => c.wikibase_id == r.2 && r.1 == cid)).map (fun _ => c))

/-- GET /concepts/(concept_id): 404 when the point lookup fetches no row,
otherwise the composite of the first fetched row and both edge
expansions. -/
def get_concept (db : ApiDb) (concept_id : String) :
    Except ApiError ConceptComposite :=
  match db.concepts.filter (fun c => c.wikibase_id == concept_id) with
  | [] => Except.error (ApiError.notFound "Concept not found")
  | row :: _ =>
    Except.ok ⟨row, relatedRows db concept_id, subconceptRows db concept_id⟩

/-! #### batch_search_concepts

api.py builds the query text itself:
placeholders = ",".join over the ids of the f-string quoting each id, then
WHERE wikibase_id IN (placeholders). The engine then lexes that text, so
the model carries a lexer for the comma-separated single-quoted literal
list; a text that fails to lex that way is a query error, which the
handler catches and maps to a 500. -/

/-- The single-quote character, written by code point. -/
def squote : Char := Char.ofNat 39

/-- The f-string around each id: a quote, the raw id text, a quote. -/
def sqlQuote (i : String) : String :=
  String.mk [squote] ++ i ++ String.mk [squote]

/-- Python str.join with a comma separator. -/
def joinComma : List String → String
  | [] => ""
  | [x] => x
  | x :: xs => x ++ "," ++ joinComma xs

/-- The spliced IN-list text of batch_search_concepts. -/
def batchInClause (ids : List String) : String :=
  joinComma (ids.map sqlQuote)

/-- Lexing of one SQL string literal body (opening quote already consumed):
two consecutive quotes stand for one quote character, a lone quote closes
the literal, and running out of input is an unterminated-literal error. -/
def lexLit (acc : List Char) : List Char → Option (String × List Char)
  | [] => none
  | c :: rest =>
    if c = squote then
      match rest with
      | c2 :: rest2 =>
        if c2 = squote then lexLit (acc ++ [squote]) rest2
        else some (String.mk acc, rest)
      | [] => some (String.mk acc, [])
    else lexLit (acc ++ [c]) rest

/-- Fuel-indexed lexer for a nonempty comma-separated list of quoted
literals; any other shape is a syntax error. -/
def lexInListFuel : Nat → List Char → Option (List String)
  | 0, _ => none
  | f + 1, l =>
    match l with
    | [] => none
    | c :: rest =>
      if c = squote then
        match lexLit [] rest with
        | none => none
        | some (lit, rest2) =>
          match rest2 with
          | [] => some [lit]
          | c2 :: rest3 =>
            if c2 = ',' then (lexInListFuel f rest3).map (fun t => lit :: t)
            else none
      else none

/-- The engine reading of an IN-list text. -/
def lexInList (l : List Char) : Option (List String) :=
  lexInListFuel (l.length + 1) l

/-- GET /concepts/batch_search: 400 on an empty id list; otherwise execute
the spliced query, mapping an engine failure to a 500 and otherwise
returning the (possibly empty) matches. -/
def batch_search_concepts (db : ApiDb) (ids : List String) :
    Except ApiError (List ApiConceptRow) :=
  if ids = [] then Except.error (ApiError.badRequest "No IDs provided")
  else
    match lexInList (batchInClause ids).data with
    | none => Except.error (ApiError.internal "Database query failed")
    | some items =>
      Except.ok (db.concepts.filter (fun c => items.contains c.wikibase_id))

/-! #### Spec-side comparison definitions -/

/-- Case-insensitive starts-with, following the spec words for the search
postcondition (prefix matching of the preferred label). -/
def startsWithCI : List Char → List Char → Bool
  | [], _ => true
  | _ :: _, [] => false
  | p :: ps, c :: s => lowerEq p c && startsWithCI ps s

/-- A query string free of LIKE wildcard characters. -/
def noLikeWildcards (q : String) : Bool :=
  q.data.all (fun c => !(c == pctChar || c == usChar))

/-! ### Concrete fixtures used by the counterexamples and witnesses -/

/-- The Q1 record of the spec example scenario. -/
def q1Record : InputRecord :=
  { wikibase_id := "Q1", preferred_label := "Flood", alternative_labels := [],
    negative_labels := [], description := "", definition := "",
    labelled_passages := "[]", subconcept_of := [], related_concepts := ["Q2"] }

/-- The Q2 record of the spec example scenario. -/
def q2Record : InputRecord :=
  { wikibase_id := "Q2", preferred_label := "Drought", alternative_labels := [],
    negative_labels := [], description := "", definition := "",
    labelled_passages := "[]", subconcept_of := ["Q1"], related_concepts := ["Q1"] }

/-- The dataset the builder produces from the example scenario. -/
def exampleBuildDb : BuildState :=
  { concepts := [conceptRowOf q1Record, conceptRowOf q2Record]
    subRel := [("Q2", "Q1")]
    relRel := [("Q1", "Q2")]
    missing := [] }

/-- A record declaring a related concept from the larger-id side only. -/
def q2OnlyRecord : InputRecord :=
  { wikibase_id := "Q2", preferred_label := "Drought", alternative_labels := [],
    negative_labels := [], description := "", definition := "",
    labelled_passages := "[]", subconcept_of := [], related_concepts := ["Q1"] }

/-- A record listing its own id among its subconcept_of parents. -/
def selfSubRecord : InputRecord :=
  { wikibase_id := "Q1", preferred_label := "Flood", alternative_labels := [],
    negative_labels := [], description := "", definition := "",
    labelled_passages := "[]", subconcept_of := ["Q1"], related_concepts := [] }

/-- The dataset built from the self-parent record. -/
def selfSubDb : BuildState :=
  { concepts := [conceptRowOf selfSubRecord]
    subRel := [("Q1", "Q1")]
    relRel := []
    missing := [] }

/-- API-side row for Q1. -/
def exQ1 : ApiConceptRow :=
  { wikibase_id := "Q1", preferred_label := "Flood", alternative_labels := [],
    negative_labels := [], description := "", definition := "",
    labelled_passages := "[]", has_classifier := false }

/-- API-side row for Q2. -/
def exQ2 : ApiConceptRow :=
  { wikibase_id := "Q2", preferred_label := "Drought", alternative_labels := [],
    negative_labels := [], description := "", definition := "",
    labelled_passages := "[]", has_classifier := false }

/-- API dataset with one related edge between Q1 and Q2. -/
def exApiDb : ApiDb :=
  { concepts := [exQ1, exQ2], subRel := [], relRel := [("Q1", "Q2")] }

/-- An API dataset with no rows at all. -/
def emptyApiDb : ApiDb := { concepts := [], subRel := [], relRel := [] }

/-- A concept with a classifier whose label matches the query x. -/
def rowXa : ApiConceptRow :=
  { wikibase_id := "QX", preferred_label := "Xa", alternative_labels := [],
    negative_labels := [], description := "", definition := "",
    labelled_passages := "[]", has_classifier := true }

/-- A concept without a classifier whose label contains the letter a. -/
def rowZa : ApiConceptRow :=
  { wikibase_id := "QZ", preferred_label := "za", alternative_labels := [],
    negative_labels := [], description := "", definition := "",
    labelled_passages := "[]", has_classifier := false }

/-- Search fixture dataset. -/
def db5 : ApiDb := { concepts := [rowXa, rowZa], subRel := [], relRel := [] }

/-- A concept row keyed b, targeted by the injection id. -/
def rowB : ApiConceptRow :=
  { wikibase_id := "b", preferred_label := "B", alternative_labels := [],
    negative_labels := [], description := "", definition := "",
    labelled_passages := "[]", has_classifier := false }

/-- Dataset holding only the b concept. -/
def dbB : ApiDb := { concepts := [rowB], subRel := [], relRel := [] }

/-- The crafted identifier a-quote-comma-quote-b, which the splice turns
into two distinct literals. -/
def injId : String := String.mk ['a', squote, ',', squote, 'b']

/-- An identifier consisting of one single-quote character. -/
def quoteId : String := String.mk [squote]

/-! ### Helper lemmas: builder invariants -/

theorem insertConcepts_edges :
    ∀ (l : List InputRecord) (s s2 : BuildState), insertConcepts s l = some s2 →
      s2.subRel = s.subRel ∧ s2.relRel = s.relRel := by
  intro l
  induction l with
  | nil => intro s s2 h; simp [insertConcepts] at h; simp [← h]
  | cons r rest ih =>
    intro s s2 h
    simp only [insertConcepts] at h
    split at h
    · exact absurd h (by simp)
    · exact ih { s with concepts := s.concepts ++ [conceptRowOf r] } s2 h

theorem insertSubEdge_relRel (s : BuildState) (rid pid : String) :
    (insertSubEdge s rid pid).relRel = s.relRel := by
  unfold insertSubEdge; split <;> rfl

theorem insertRelEdge_subRel (s : BuildState) (rid tid : String) :
    (insertRelEdge s rid tid).subRel = s.subRel := by
  unfold insertRelEdge
  split
  · split <;> rfl
  · rfl

theorem mem_insertSubEdge_subRel (s : BuildState) (rid pid : String)
    (p : String × String) (h : p ∈ (insertSubEdge s rid pid).subRel) :
    p ∈ s.subRel ∨ p = (rid, pid) := by
  unfold insertSubEdge at h
  split at h
  · simpa using h
  · exact Or.inl h

theorem mem_insertRelEdge_relRel (s : BuildState) (rid tid : String)
    (p : String × String) (h : p ∈ (insertRelEdge s rid tid).relRel) :
    p ∈ s.relRel ∨ (p = (rid, tid) ∧ rid < tid) := by
  unfold insertRelEdge at h
  split at h
  · rename_i hlt
    split at h
    · rcases List.mem_append.mp h with h1 | h1
      · exact Or.inl h1
      · exact Or.inr ⟨by simpa using h1, hlt⟩
    · exact Or.inl h
  · exact Or.inl h

theorem insertSubEdges_relRel (rid : String) :
    ∀ (ps : List String) (s : BuildState),
      (insertSubEdges rid s ps).relRel = s.relRel := by
  intro ps
  induction ps with
  | nil => intro s; rfl
  | cons p rest ih =>
    intro s
    simp only [insertSubEdges]
    rw [ih, insertSubEdge_relRel]

theorem insertRelEdges_subRel (rid : String) :
    ∀ (ts : List String) (s : BuildState),
      (insertRelEdges rid s ts).subRel = s.subRel := by
  intro ts
  induction ts with
  | nil => intro s; rfl
  | cons t rest ih =>
    intro s
    simp only [insertRelEdges]
    rw [ih, insertRelEdge_subRel]

theorem mem_insertSubEdges_subRel (rid : String) :
    ∀ (ps : List String) (s : BuildState) (p : String × String),
      p ∈ (insertSubEdges rid s ps).subRel →
      p ∈ s.subRel ∨ (p.1 = rid ∧ p.2 ∈ ps) := by
  intro ps
  induction ps with
  | nil => intro s p h; exact Or.inl h
  | cons q rest ih =>
    intro s p h
    simp only [insertSubEdges] at h
    rcases ih _ _ h with h1 | ⟨h1, h2⟩
    · rcases mem_insertSubEdge_subRel _ _ _ _ h1 with h2 | h2
      · exact Or.inl h2
      · subst h2; exact Or.inr ⟨rfl, by simp⟩
    · exact Or.inr ⟨h1, by simp [h2]⟩

theorem mem_insertRelEdges_relRel (rid : String) :
    ∀ (ts : List String) (s : BuildState) (p : String × String),
      p ∈ (insertRelEdges rid s ts).relRel →
      p ∈ s.relRel ∨ (p.1 = rid ∧ p.2 ∈ ts ∧ p.1 < p.2) := by
  intro ts
  induction ts with
  | nil => intro s p h; exact Or.inl h
  | cons t rest ih =>
    intro s p h
    simp only [insertRelEdges] at h
    rcases ih _ _ h with h1 | ⟨h1, h2, h3⟩
    · rcases mem_insertRelEdge_relRel _ _ _ _ h1 with h2 | ⟨h2, h3⟩
      · exact Or.inl h2
      · subst h2; exact Or.inr ⟨rfl, by simp, h3⟩
    · exact Or.inr ⟨h1, by simp [h2], h3⟩

theorem mem_pass2_subRel :
    ∀ (l : List InputRecord) (s : BuildState) (p : String × String),
      p ∈ (pass2 s l).subRel →
      p ∈ s.subRel ∨ ∃ r ∈ l, p.1 = r.wikibase_id ∧ p.2 ∈ r.subconcept_of := by
  intro l
  induction l with
  | nil => intro s p h; exact Or.inl h
  | cons r rest ih =>
    intro s p h
    simp only [pass2] at h
    rcases ih _ _ h with h1 | ⟨r2, hr2, h2⟩
    · rw [insertRelEdges_subRel] at h1
      rcases mem_insertSubEdges_subRel _ _ _ _ h1 with h2 | ⟨h2, h3⟩
      · exact Or.inl h2
      · exact Or.inr ⟨r, List.mem_cons_self r rest, h2, h3⟩
    · exact Or.inr ⟨r2, List.mem_cons_of_mem r hr2, h2⟩

theorem mem_pass2_relRel :
    ∀ (l : List InputRecord) (s : BuildState) (p : String × String),
      p ∈ (pass2 s l).relRel →
      p ∈ s.relRel ∨
        ∃ r ∈ l, p.1 = r.wikibase_id ∧ p.2 ∈ r.related_concepts ∧ p.1 < p.2 := by
  intro l
  induction l with
  | nil => intro s p h; exact Or.inl h
  | cons r rest ih =>
    intro s p h
    simp only [pass2] at h
    rcases ih _ _ h with h1 | ⟨r2, hr2, h2⟩
    · rcases mem_insertRelEdges_relRel _ _ _ _ h1 with h2 | ⟨h2, h3, h4⟩
      · rw [insertSubEdges_relRel] at h2
        exact Or.inl h2
      · exact Or.inr ⟨r, List.mem_cons_self r rest, h2, h3, h4⟩
    · exact Or.inr ⟨r2, List.mem_cons_of_mem r hr2, h2⟩

theorem build_subRel_sound (records : List InputRecord) (db : BuildState)
    (h : build records = some db) (p : String × String) (hp : p ∈ db.subRel) :
    ∃ r ∈ records, p.1 = r.wikibase_id ∧ p.2 ∈ r.subconcept_of := by
  unfold build at h
  cases h1 : insertConcepts ⟨[], [], [], []⟩ records with
  | none => rw [h1] at h; exact absurd h (by simp)
  | some s1 =>
    rw [h1] at h
    have hdb : db = pass2 s1 records := by
      simpa using h.symm
    subst hdb
    rcases mem_pass2_subRel records s1 p hp with h2 | h2
    · rw [(insertConcepts_edges records _ s1 h1).1] at h2
      exact absurd h2 (by simp)
    · exact h2

theorem build_relRel_sound (records : List InputRecord) (db : BuildState)
    (h : build records = some db) (p : String × String) (hp : p ∈ db.relRel) :
    p.1 < p.2 ∧ ∃ r ∈ records, p.1 = r.wikibase_id ∧ p.2 ∈ r.related_concepts := by
  unfold build at h
  cases h1 : insertConcepts ⟨[], [], [], []⟩ records with
  | none => rw [h1] at h; exact absurd h (by simp)
  | some s1 =>
    rw [h1] at h
    have hdb : db = pass2 s1 records := by
      simpa using h.symm
    subst hdb
    rcases mem_pass2_relRel records s1 p hp with h2 | ⟨r, hr, h2, h3, h4⟩
    · rw [(insertConcepts_edges records _ s1 h1).2] at h2
      exact absurd h2 (by simp)
    · exact ⟨h4, r, hr, h2, h3⟩

/-! ### Helper lemmas: strings, ILIKE and the literal-list lexer -/

theorem str_data_append : ∀ a b : String, (a ++ b).data = a.data ++ b.data
  | ⟨_⟩, ⟨_⟩ => rfl

theorem likeMatchFuel_pct :
    ∀ (s : List Char) (f : Nat), s.length + 1 < f →
      likeMatchFuel f [pctChar] s = true := by
  intro s
  induction s with
  | nil =>
    intro f hf
    match f, hf with
    | f + 2, _ => simp [likeMatchFuel]
  | cons c s2 ih =>
    intro f hf
    match f, hf with
    | f + 1, hf =>
      simp only [likeMatchFuel, if_pos rfl]
      have := ih f (by simpa using Nat.lt_of_succ_lt_succ hf)
      simp [this]

theorem likeMatchFuel_noWild :
    ∀ (ql : List Char), (∀ c ∈ ql, c ≠ pctChar ∧ c ≠ usChar) →
      ∀ (s : List Char) (f : Nat), ql.length + s.length + 1 < f →
        likeMatchFuel f (ql ++ [pctChar]) s = startsWithCI ql s := by
  intro ql
  induction ql with
  | nil =>
    intro _ s f hf
    simpa [startsWithCI] using likeMatchFuel_pct s f (by simpa using hf)
  | cons p ps ih =>
    intro hw s f hf
    have hp := hw p (List.mem_cons_self p ps)
    match f, hf with
    | f + 1, hf =>
      simp only [List.cons_append, likeMatchFuel, if_neg hp.1]
      cases s with
      | nil => simp [startsWithCI]
      | cons c s2 =>
        have hrec := ih (fun c hc => hw c (List.mem_cons_of_mem p hc)) s2 f
          (by simp at hf ⊢; omega)
        simp [startsWithCI, if_neg hp.2, hrec]

theorem ilike_noWild (q s : String) (hq : noLikeWildcards q = true) :
    ilike (q ++ "%") s = startsWithCI q.data s.data := by
  have hdata : (q ++ "%").data = q.data ++ [pctChar] := by
    rw [str_data_append]; rfl
  have hw : ∀ c ∈ q.data, c ≠ pctChar ∧ c ≠ usChar := by
    intro c hc
    have := List.all_eq_true.mp hq c hc
    constructor <;> intro h <;> subst h <;> simp at this
  unfold ilike likeMatch
  rw [hdata]
  exact likeMatchFuel_noWild q.data hw s.data _ (by simp)

theorem lexLit_other (acc : List Char) (c : Char) (rest : List Char)
    (hc : c ≠ squote) : lexLit acc (c :: rest) = lexLit (acc ++ [c]) rest := by
  cases rest <;> simp [lexLit, hc]

theorem lexLit_close (acc rest : List Char)
    (hrest : ∀ c cs, rest = c :: cs → c ≠ squote) :
    lexLit acc (squote :: rest) = some (String.mk acc, rest) := by
  cases rest with
  | nil => simp [lexLit]
  | cons c cs => simp [lexLit, hrest c cs rfl]

theorem lexLit_no_quote :
    ∀ (l acc rest : List Char), squote ∉ l →
      (∀ c cs, rest = c :: cs → c ≠ squote) →
      lexLit acc (l ++ squote :: rest) = some (String.mk (acc ++ l), rest) := by
  intro l
  induction l with
  | nil =>
    intro acc rest _ hrest
    simpa using lexLit_close acc rest hrest
  | cons a l2 ih =>
    intro acc rest hl hrest
    have ha : a ≠ squote := fun h => hl (h ▸ List.mem_cons_self a l2)
    rw [List.cons_append, lexLit_other acc a _ ha,
      ih (acc ++ [a]) rest (fun h => hl (List.mem_cons_of_mem a h)) hrest]
    simp

theorem batchInClause_cons (x y : String) (t : List String) :
    batchInClause (x :: y :: t) = sqlQuote x ++ "," ++ batchInClause (y :: t) := rfl

theorem sqlQuote_data (x : String) :
    (sqlQuote x).data = squote :: x.data ++ [squote] := by
  unfold sqlQuote
  rw [str_data_append, str_data_append]
  rfl

theorem lexInListFuel_splice :
    ∀ (ids : List String), ids ≠ [] → (∀ i ∈ ids, squote ∉ i.data) →
      ∀ (f : Nat), (batchInClause ids).data.length < f →
        lexInListFuel f (batchInClause ids).data = some ids := by
  intro ids
  induction ids with
  | nil => intro h; exact absurd rfl h
  | cons x t ih =>
    intro _ hq f hf
    have hx : squote ∉ x.data := hq x (List.mem_cons_self x t)
    cases t with
    | nil =>
      have hclause : (batchInClause [x]).data = squote :: (x.data ++ squote :: []) := by
        show (sqlQuote x).data = _
        rw [sqlQuote_data]; simp
      rw [hclause] at hf ⊢
      match f, hf with
      | f + 1, _ =>
        simp only [lexInListFuel, if_pos rfl]
        rw [lexLit_no_quote x.data [] [] hx (by intro c cs h; cases h)]
        simp
    | cons y t2 =>
      have hclause : (batchInClause (x :: y :: t2)).data =
          squote :: (x.data ++ squote :: (',' :: (batchInClause (y :: t2)).data)) := by
        rw [batchInClause_cons, str_data_append, str_data_append, sqlQuote_data]
        simp
      rw [hclause] at hf ⊢
      match f, hf with
      | f + 1, hf =>
        simp only [lexInListFuel, if_pos rfl]
        rw [lexLit_no_quote x.data [] (',' :: (batchInClause (y :: t2)).data) hx
          (by intro c cs h; cases h; decide)]
        simp only [List.nil_append, if_pos rfl]
        rw [ih (by simp) (fun i hi => hq i (List.mem_cons_of_mem x hi)) f
          (by simp only [List.length_cons, List.length_append] at hf; omega)]
        rfl

theorem batch_quoteFree (db : ApiDb) (ids : List String) (hne : ids ≠ [])
    (hq : ∀ i ∈ ids, squote ∉ i.data) :
    batch_search_concepts db ids =
      Except.ok (db.concepts.filter (fun c => ids.contains c.wikibase_id)) := by
  unfold batch_search_concepts
  rw [if_neg hne]
  unfold lexInList
  rw [lexInListFuel_splice ids hne hq _ (Nat.lt_succ_self _)]

/-! ### Helper lemmas: search handler -/

theorem searchRows_some (db : ApiDb) (q : String) (limit : Nat) (hc : Option Bool)
    (hq : q ≠ "") :
    searchRows db (some q) limit hc = searchWithQuery db q limit hc := by
  simp [searchRows, hq]

theorem search_ok_rows (db : ApiDb) (q : Option String) (limit : Nat)
    (hc : Option Bool) (l : List ApiConceptRow)
    (h : search_concepts db q limit hc = Except.ok l) :
    searchRows db q limit hc = l := by
  unfold search_concepts at h
  simp only at h
  split at h
  · exact absurd h (by simp)
  · simpa using h

theorem mem_searchWithQuery (db : ApiDb) (q : String) (limit : Nat)
    (hc : Option Bool) (c : ApiConceptRow)
    (hm : c ∈ searchWithQuery db q limit hc) :
    ilike (q ++ "%") c.preferred_label = true ∧
      ∀ f, hc = some f → c.has_classifier = f := by
  cases hc with
  | none =>
    simp only [searchWithQuery] at hm
    have h2 := (List.mem_filter.mp (List.take_subset _ _ hm)).2
    exact ⟨h2, fun f hf => by cases hf⟩
  | some f =>
    simp only [searchWithQuery] at hm
    have h2 := (List.mem_filter.mp (List.take_subset _ _ hm)).2
    rw [Bool.and_eq_true] at h2
    refine ⟨h2.1, fun f2 hf => ?_⟩
    cases hf
    exact beq_iff_eq.mp h2.2

theorem length_searchWithQuery (db : ApiDb) (q : String) (limit : Nat)
    (hc : Option Bool) : (searchWithQuery db q limit hc).length ≤ limit := by
  cases hc <;>
    simp only [searchWithQuery, List.length_take] <;>
    exact Nat.min_le_left _ _

/-! ### Claims -/

/-- C1: the claim says every concept stored by the ingestion builder carries
the boolean classifier-presence flag, so the three Concept-shape reads
succeed and return has_classifier. In the code the builder DDL creates the
concepts table without any has_classifier column while all three api.py
SELECT lists name that column, so those reads cannot bind against a built
dataset: has_classifier is selected by the API but absent from the built
schema. -/
theorem c1_has_classifier_not_built :
    ¬ selectBindsOk builderConceptColumns apiConceptSelectColumns ∧
    "has_classifier" ∈ apiConceptSelectColumns ∧
    "has_classifier" ∉ builderConceptColumns := by
  refine ⟨fun h => ?_, by decide, by decide⟩
  have hmem := h "has_classifier" (by decide)
  revert hmem
  decide

/-- C2: the claim says that after building the spec example (Q2 declares
subconcept_of Q1), GetConcept Q1 lists Q2 among its subconcepts and
GetConcept Q2 has none. Evaluating the builder and the subconcepts query
of get_concept on that input shows the opposite: the builder writes the
row (concept_id = Q2, subconcept_id = Q1) while the query treats
concept_id as the parent side, so Q1 gets no subconcepts and Q2 gets Q1. -/
theorem c2_subconcept_direction_reversed :
    build [q1Record, q2Record] = some exampleBuildDb ∧
    builtSubconcepts exampleBuildDb "Q1" = [] ∧
    builtSubconcepts exampleBuildDb "Q2" = [conceptRowOf q1Record] :=
  ⟨by decide, rfl, rfl⟩

/-- C3: the claim says related_concepts holds exactly the opposite endpoint
of each incident related edge and never the queried concept itself. The
JOIN condition of get_concept accepts either endpoint, so for the stored
edge (Q1, Q2) the handler returns both rows, including the queried Q1
record itself. -/
theorem c3_related_includes_queried_concept :
    get_concept exApiDb "Q1" = Except.ok ⟨exQ1, [exQ1, exQ2], []⟩ ∧
    exQ1.wikibase_id = "Q1" ∧ ("Q1", "Q2") ∈ exApiDb.relRel :=
  ⟨rfl, rfl, by decide⟩

/-- C4 counterexample: a search that matches nothing does not return an
empty success list; it raises 404 Not Found. -/
theorem c4_counterexample :
    search_concepts emptyApiDb (some "x") 10 (some false) =
      Except.error (ApiError.notFound "No results found") ∧
    search_concepts emptyApiDb (some "x") 10 (some false) ≠
      Except.ok [] :=
  ⟨rfl, fun h => Except.noConfusion h⟩

/-- C4 amended: whenever the fetched row set of search_concepts is empty,
the handler fails with the NotFound error rather than succeeding with an
empty list. -/
theorem c4_zero_matches_amended (db : ApiDb) (q : Option String) (limit : Nat)
    (hc : Option Bool) (h : searchRows db q limit hc = []) :
    search_concepts db q limit hc =
      Except.error (ApiError.notFound "No results found") := by
  simp [search_concepts, h]

/-- C4 witness: the amended theorem applied to the empty dataset. -/
theorem c4_zero_matches_amended_witness :
    searchRows emptyApiDb (some "x") 10 (some false) = [] ∧
    search_concepts emptyApiDb (some "x") 10 (some false) =
      Except.error (ApiError.notFound "No results found") :=
  ⟨rfl, c4_zero_matches_amended emptyApiDb (some "x") 10 (some false) rfl⟩

/-- C5 counterexample: two failures of the claim. First, the classifier
filter is not off when absent: its signature default is False, so the
concept Xa, whose label starts with the query x but whose flag is true, is
filtered out and the search 404s. Second, ILIKE wildcards in the query
defeat prefix matching: the query percent-a returns the concept labelled
za, whose label does not start with the query case-insensitively. -/
theorem c5_counterexample :
    (search_concepts db5 (some "x") 10 searchDefaultHasClassifier =
        Except.error (ApiError.notFound "No results found") ∧
      rowXa ∈ db5.concepts ∧
      startsWithCI "x".data rowXa.preferred_label.data = true ∧
      rowXa.has_classifier = true) ∧
    (search_concepts db5 (some "%a") 10 (some false) = Except.ok [rowZa] ∧
      startsWithCI "%a".data rowZa.preferred_label.data = false) :=
  ⟨⟨rfl, by decide, rfl, rfl⟩, rfl, rfl⟩

/-- C5 amended: for a non-empty query, a successful search returns at most
limit rows, each ILIKE-matching the pattern query-then-percent; the
classifier filter is enforced whenever the parameter is non-None — and its
default is False, not None; when the query contains no LIKE wildcard
characters the ILIKE match is exactly case-insensitive prefix matching. -/
theorem c5_search_postcondition_amended (db : ApiDb) (q : String) (limit : Nat)
    (hc : Option Bool) (l : List ApiConceptRow) (hq : q ≠ "")
    (hok : search_concepts db (some q) limit hc = Except.ok l) :
    searchDefaultHasClassifier = some false ∧
    l.length ≤ limit ∧
    (∀ c ∈ l, ilike (q ++ "%") c.preferred_label = true) ∧
    (∀ f, hc = some f → ∀ c ∈ l, c.has_classifier = f) ∧
    (noLikeWildcards q = true →
      ∀ c ∈ l, startsWithCI q.data c.preferred_label.data = true) := by
  have hrows : searchWithQuery db q limit hc = l := by
    have h1 := search_ok_rows db (some q) limit hc l hok
    rw [searchRows_some db q limit hc hq] at h1
    exact h1
  subst hrows
  refine ⟨rfl, length_searchWithQuery db q limit hc, ?_, ?_, ?_⟩
  · intro c hcm
    exact (mem_searchWithQuery db q limit hc c hcm).1
  · intro f hf c hcm
    exact (mem_searchWithQuery db q limit hc c hcm).2 f hf
  · intro hwild c hcm
    rw [← ilike_noWild q c.preferred_label hwild]
    exact (mem_searchWithQuery db q limit hc c hcm).1

/-- C5 witness: the amended theorem applied to the fixture search. -/
theorem c5_search_postcondition_amended_witness :
    searchDefaultHasClassifier = some false ∧
    ([rowZa] : List ApiConceptRow).length ≤ 10 ∧
    (∀ c ∈ [rowZa], ilike ("%a" ++ "%") c.preferred_label = true) ∧
    (∀ f, (some false : Option Bool) = some f →
      ∀ c ∈ [rowZa], c.has_classifier = f) ∧
    (noLikeWildcards "%a" = true →
      ∀ c ∈ [rowZa], startsWithCI "%a".data c.preferred_label.data = true) :=
  c5_search_postcondition_amended db5 "%a" 10 (some false) [rowZa]
    (by decide) rfl

/-- C6 counterexample: identifiers are not treated as opaque data. The
single crafted identifier a-quote-comma-quote-b lexes, once spliced, as the
two literals a and b, so the batch returns the concept b even though the
identifier list does not contain b. -/
theorem c6_counterexample :
    batch_search_concepts dbB [injId] = Except.ok [rowB] ∧
    rowB.wikibase_id ∉ [injId] ∧ rowB ∈ dbB.concepts :=
  ⟨rfl, by decide, by decide⟩

/-- C6 amended: the membership test is built by splicing each id between
single quotes into the query text, not by parameter binding, so the result
depends only on the spliced text; only for identifier lists free of the
quote character is the result exactly the concepts whose wikibase_id
appears in the list. -/
theorem c6_batch_splice_amended (db : ApiDb) (ids : List String)
    (hne : ids ≠ []) (hq : ∀ i ∈ ids, squote ∉ i.data) :
    batch_search_concepts db ids =
      Except.ok (db.concepts.filter (fun c => ids.contains c.wikibase_id)) ∧
    (∀ ids2, ids2 ≠ [] → batchInClause ids2 = batchInClause ids →
      batch_search_concepts db ids2 = batch_search_concepts db ids) := by
  refine ⟨batch_quoteFree db ids hne hq, ?_⟩
  intro ids2 hne2 heq
  unfold batch_search_concepts
  rw [if_neg hne2, if_neg hne, heq]

/-- C6 witness: the amended theorem applied to a quote-free list. -/
theorem c6_batch_splice_amended_witness :
    batch_search_concepts dbB ["a", "b"] =
      Except.ok (dbB.concepts.filter
        (fun c => (["a", "b"] : List String).contains c.wikibase_id)) ∧
    (∀ ids2, ids2 ≠ [] → batchInClause ids2 = batchInClause ["a", "b"] →
      batch_search_concepts dbB ids2 = batch_search_concepts dbB ["a", "b"]) :=
  c6_batch_splice_amended dbB ["a", "b"] (by decide) (by decide)

/-- C7 counterexample: a record whose id is larger than the related id it
declares. The claim requires the canonical pair (Q1, Q2) to be attempted
(stored, or its failure recorded); the builder does neither — it skips the
declaration entirely, leaving both the related relation and the
missing-reference set empty. -/
theorem c7_counterexample :
    build [q2OnlyRecord] = some ⟨[conceptRowOf q2OnlyRecord], [], [], []⟩ ∧
    q2OnlyRecord.wikibase_id = "Q2" ∧ "Q1" ∈ q2OnlyRecord.related_concepts :=
  ⟨by decide, rfl, by decide⟩

/-- C7 amended: the builder attempts a related insertion only when the
declaring record id is lexicographically smaller than the related id,
inserting the pair (declaring id, related id); otherwise the declaration
is skipped without any attempt. Consequently every stored related pair is
strictly ordered and stems from the smaller-side declaration. -/
theorem c7_related_canonicalization_amended :
    (∀ (s : BuildState) (rid tid : String), ¬ rid < tid →
      insertRelEdge s rid tid = s) ∧
    (∀ (records : List InputRecord) (db : BuildState), build records = some db →
      ∀ p ∈ db.relRel, p.1 < p.2 ∧
        ∃ r ∈ records, p.1 = r.wikibase_id ∧ p.2 ∈ r.related_concepts) := by
  constructor
  · intro s rid tid h
    unfold insertRelEdge
    rw [if_neg h]
  · intro records db h p hp
    exact build_relRel_sound records db h p hp

/-- C7 witness: the skip branch on a larger declaring id, and the
provenance of the stored pair of the example build. -/
theorem c7_related_canonicalization_amended_witness :
    insertRelEdge ⟨[], [], [], []⟩ "Q2" "Q1" = ⟨[], [], [], []⟩ ∧
    (("Q1", "Q2").1 < ("Q1", "Q2").2 ∧
      ∃ r ∈ [q1Record, q2Record], ("Q1", "Q2").1 = r.wikibase_id ∧
        ("Q1", "Q2").2 ∈ r.related_concepts) :=
  ⟨c7_related_canonicalization_amended.1 ⟨[], [], [], []⟩ "Q2" "Q1" (by decide),
   c7_related_canonicalization_amended.2 [q1Record, q2Record] exampleBuildDb
     (by decide) ("Q1", "Q2") (by decide)⟩

/-- C8 counterexample: a record listing its own id in subconcept_of makes
the builder store the self subconcept edge (Q1, Q1): both foreign keys
resolve and the pair is new, so no constraint stops it. -/
theorem c8_counterexample :
    build [selfSubRecord] = some selfSubDb ∧
    ("Q1", "Q1") ∈ selfSubDb.subRel :=
  ⟨by decide, by decide⟩

/-- C8 amended: stored related edges never have equal endpoints (the
strict order guard excludes them), but a stored subconcept edge has equal
endpoints exactly when some input record lists its own id among its
subconcept_of parents. -/
theorem c8_no_self_edge_amended (records : List InputRecord) (db : BuildState)
    (h : build records = some db) :
    (∀ p ∈ db.relRel, p.1 ≠ p.2) ∧
    (∀ p ∈ db.subRel, p.1 = p.2 →
      ∃ r ∈ records, r.wikibase_id = p.1 ∧ p.1 ∈ r.subconcept_of) := by
  constructor
  · intro p hp
    exact ne_of_lt (build_relRel_sound records db h p hp).1
  · intro p hp heq
    obtain ⟨r, hr, h1, h2⟩ := build_subRel_sound records db h p hp
    refine ⟨r, hr, h1.symm, ?_⟩
    rw [heq]
    exact h2

/-- C8 witness: the amended theorem applied to the self-parent build. -/
theorem c8_no_self_edge_amended_witness :
    ∃ r ∈ [selfSubRecord], r.wikibase_id = ("Q1", "Q1").1 ∧
      ("Q1", "Q1").1 ∈ r.subconcept_of :=
  (c8_no_self_edge_amended [selfSubRecord] selfSubDb (by decide)).2
    ("Q1", "Q1") (by decide) rfl

/-- C9: GetConcept of an absent id fails with NotFound, and GetConcept of
a present id succeeds with a composite whose concept has that wikibase_id
and whose related and subconcept members are lists (empty when no edges
match) by construction of the composite. -/
theorem c9_get_concept_contract (db : ApiDb) (x : String) :
    ((∀ r ∈ db.concepts, r.wikibase_id ≠ x) →
      get_concept db x = Except.error (ApiError.notFound "Concept not found")) ∧
    ((∃ r ∈ db.concepts, r.wikibase_id = x) →
      ∃ row rel sub, get_concept db x = Except.ok ⟨row, rel, sub⟩ ∧
        row.wikibase_id = x) := by
  constructor
  · intro h
    have hf : db.concepts.filter (fun c => c.wikibase_id == x) = [] := by
      rw [List.filter_eq_nil_iff]
      intro a ha
      simpa using h a ha
    unfold get_concept
    rw [hf]
  · rintro ⟨r, hr, hx⟩
    have hm : r ∈ db.concepts.filter (fun c => c.wikibase_id == x) :=
      List.mem_filter.mpr ⟨hr, by simpa using hx⟩
    cases hfl : db.concepts.filter (fun c => c.wikibase_id == x) with
    | nil =>
      rw [hfl] at hm
      cases hm
    | cons head tail =>
      have hhead : head ∈ db.concepts.filter (fun c => c.wikibase_id == x) := by
        rw [hfl]
        exact List.mem_cons_self head tail
      refine ⟨head, relatedRows db x, subconceptRows db x, ?_, ?_⟩
      · unfold get_concept
        rw [hfl]
      · simpa using (List.mem_filter.mp hhead).2

/-- C9 witness: the contract applied to a one-concept dataset, for an
absent and for a present id. -/
theorem c9_get_concept_contract_witness :
    get_concept exApiDb "QX" =
      Except.error (ApiError.notFound "Concept not found") ∧
    (∃ row rel sub, get_concept exApiDb "Q1" = Except.ok ⟨row, rel, sub⟩ ∧
      row.wikibase_id = "Q1") :=
  ⟨(c9_get_concept_contract exApiDb "QX").1 (by decide),
   (c9_get_concept_contract exApiDb "Q1").2 ⟨exQ1, by decide, rfl⟩⟩

/-- C10 counterexample: a non-empty identifier list on which the batch
fails: the lone quote character splices into an unterminated literal, so
the query errors and the handler returns 500, not success. -/
theorem c10_counterexample :
    ([quoteId] : List String) ≠ [] ∧
    batch_search_concepts emptyApiDb [quoteId] =
      Except.error (ApiError.internal "Database query failed") :=
  ⟨by decide, rfl⟩

/-- C10 amended: the empty identifier list is a BadRequest; a non-empty
list whose identifiers are free of the quote character succeeds and
returns exactly the concepts whose id appears in the list, silently
omitting ids with no match (so an unknown-only list yields an empty
success). Identifiers containing quote characters can instead fail or
match other rows, because they are spliced into the query text. -/
theorem c10_batch_contract_amended (db : ApiDb) (ids : List String) :
    (ids = [] → batch_search_concepts db ids =
      Except.error (ApiError.badRequest "No IDs provided")) ∧
    (ids ≠ [] → (∀ i ∈ ids, squote ∉ i.data) →
      batch_search_concepts db ids =
        Except.ok (db.concepts.filter (fun c => ids.contains c.wikibase_id))) := by
  constructor
  · intro h
    subst h
    rfl
  · intro hne hq
    exact batch_quoteFree db ids hne hq

/-- C10 witness: BadRequest on the empty list and empty success on an
unknown-only list. -/
theorem c10_batch_contract_amended_witness :
    batch_search_concepts emptyApiDb [] =
      Except.error (ApiError.badRequest "No IDs provided") ∧
    batch_search_concepts emptyApiDb ["UNKNOWN"] = Except.ok [] :=
  ⟨(c10_batch_contract_amended emptyApiDb []).1 rfl,
   (c10_batch_contract_amended emptyApiDb ["UNKNOWN"]).2 (by decide) (by decide)⟩

end Concepts
